import Mathlib

/-!
Verification of the influx2prom converter.

Shallow embedding of the Python sources:
  * `src/main.py`          — legacy CSV → Prometheus line pipeline
    (`format_timestamp`, `parse_influxdb_csv`, `influx_to_prometheus`)
  * `src/influx2prom/converter.py` — record converter and grouped
    exposition formatter (`convert_data`, `format_metrics`)
  * `src/influx2promql.py` — heuristic Flux/InfluxQL → PromQL translator

Modelling conventions:
  * Python strings are Lean `String`s; character-level operations are
    performed on `String.data` (`List Char`).
  * Python `float` is modelled as `Rat` (exact).  All theorems below only
    evaluate floats at values on which IEEE-754 double arithmetic is exact
    (small integers), so the rational model agrees with CPython there.
  * Fallible Python code (raising `ValueError`) returns `Except String`.
  * `datetime.fromisoformat` is modelled on the separator-ful subset
    `YYYY-MM-DD[ sep HH[:MM[:SS]]][±HH:MM]` (CPython ≤3.10 grammar without
    fractional seconds).  `datetime.timestamp()` on naive datetimes uses
    the local timezone in CPython; the model assumes a UTC environment.
-/

/-! ### Character/string utilities -/

def digVal (c : Char) : Nat := c.toNat - 48

def natOfDigits (cs : List Char) : Nat := cs.foldl (fun a c => 10 * a + digVal c) 0

/-- Model of Python `str.replace` for a single-character pattern:
every occurrence of `c` in `s` is replaced by `r`. -/
def charReplaceList (cs : List Char) (c : Char) (r : List Char) : List Char :=
  cs.flatMap (fun x => if x = c then r else [x])

def charReplace (s : String) (c : Char) (r : String) : String :=
  ⟨charReplaceList s.data c r.data⟩

def isPrefixList : List Char → List Char → Bool
  | [], _ => true
  | _ :: _, [] => false
  | p :: ps, c :: cs => p = c && isPrefixList ps cs

/-- `containsList pat cs` : does `cs` contain `pat` as a substring
(Python `pat in cs`). -/
def containsList (pat : List Char) : List Char → Bool
  | [] => isPrefixList pat []
  | c :: cs => isPrefixList pat (c :: cs) || containsList pat cs

def strStartsWith (s pre : String) : Bool := isPrefixList pre.data s.data

def strContains (s pat : String) : Bool := containsList pat.data s.data

/-- The characters Python `str.strip()` (and the regex class `\s`) treat as
whitespace, restricted to ASCII. -/
def isPyWhitespace (c : Char) : Bool :=
  c = ' ' || c = '\t' || c = '\n' || c = '\r' || c = '\x0b' || c = '\x0c'

def pyStrip (s : String) : String :=
  ⟨((s.data.dropWhile isPyWhitespace).reverse.dropWhile isPyWhitespace).reverse⟩

/-- Python `str.strip(chars)` with an explicit character set. -/
def pyStripChars (s : String) (set : List Char) : String :=
  ⟨((s.data.dropWhile (· ∈ set)).reverse.dropWhile (· ∈ set)).reverse⟩

def pyLower (s : String) : String := ⟨s.data.map Char.toLower⟩

def pyUpper (s : String) : String := ⟨s.data.map Char.toUpper⟩

/-- Split a character list on a separator character (keeping empty parts),
like Python `str.split(sep)`. -/
def splitListOn (sep : Char) : List Char → List (List Char)
  | [] => [[]]
  | c :: cs =>
    let r := splitListOn sep cs
    if c = sep then [] :: r
    else
      match r with
      | [] => [[c]]
      | h :: t => (c :: h) :: t

/-- Python `'sep'.join(parts)`. -/
def joinWith (sep : String) : List String → String
  | [] => ""
  | [x] => x
  | x :: y :: xs => x ++ sep ++ joinWith sep (y :: xs)

/-! ### Python `float(...)` model (exact, over `Rat`)

`pyFloat?` models CPython `float(str)` on the grammar
`[ws] [sign] (digits [. digits] | . digits) [(e|E) [sign] digits] [ws]`.
Not modelled: `inf`/`nan` literals and `_` digit separators; every input a
theorem below evaluates is either a plain digit string or rejected by
CPython as well. The value is exact; CPython rounds to the nearest double,
which agrees on the ≤15-digit integer inputs used here. -/

def takeDigits (cs : List Char) : List Char × List Char :=
  (cs.takeWhile Char.isDigit, cs.dropWhile Char.isDigit)

def pow10 (k : Nat) : Nat := 10 ^ k

/-- Strip an optional leading sign, returning the sign as `±1`. -/
def stripSign : List Char → Int × List Char
  | [] => (1, [])
  | c :: cs => if c = '+' then (1, cs) else if c = '-' then (-1, cs) else (1, c :: cs)

/-- Parse the exponent part `(e|E)[sign]digits` (or nothing). Returns the
exponent as an integer, or `none` on a malformed trailing part. -/
def parseExpPart : List Char → Option Int
  | [] => some 0
  | c :: cs =>
    if c = 'e' || c = 'E' then
      let (sgn, cs) := stripSign cs
      let (ds, rest) := takeDigits cs
      if ds.isEmpty || !rest.isEmpty then none
      else some (sgn * (natOfDigits ds : Int))
    else none

def applyExp (q : Rat) (e : Int) : Rat :=
  if 0 ≤ e then q * ((pow10 e.toNat : Nat) : Rat)
  else q / ((pow10 (-e).toNat : Nat) : Rat)

/-- The fractional part `.digits` (or nothing). -/
def fracPart : List Char → List Char × List Char
  | '.' :: rest => takeDigits rest
  | rest => ([], rest)

def pyFloatCore (cs0 : List Char) : Option Rat :=
  let p0 := stripSign cs0
  let p1 := takeDigits p0.2
  let p2 := fracPart p1.2
  if p1.1.isEmpty && p2.1.isEmpty then none
  else
    match parseExpPart p2.2 with
    | none => none
    | some e =>
      let mantissa : Rat :=
        (natOfDigits p1.1 : Rat) + (natOfDigits p2.1 : Rat) / ((pow10 p2.1.length : Nat) : Rat)
      some (applyExp ((p0.1 : Rat) * mantissa) e)

def pyFloat? (s : String) : Option Rat := pyFloatCore (pyStrip s).data

/-- Python `int(...)` applied to a float: truncation toward zero. -/
def pyIntOfRat (q : Rat) : Int := q.num.tdiv (q.den : Int)

/-! ### `datetime.fromisoformat` / `.timestamp()` model

`fromIsoMs s` returns `int(datetime.fromisoformat(s).timestamp() * 1000)`
when the parse succeeds, `none` when it raises `ValueError`. -/

def isLeap (y : Int) : Bool := (y % 4 = 0 && y % 100 ≠ 0) || y % 400 = 0

def daysInMonth (y : Int) (m : Nat) : Nat :=
  if m = 2 then (if isLeap y then 29 else 28)
  else if m = 4 || m = 6 || m = 9 || m = 11 then 30
  else 31

/-- Days from 1970-01-01 to `y-m-d` (proleptic Gregorian), via the
standard era decomposition. -/
def daysFromCivil (y : Int) (m d : Nat) : Int :=
  let y' : Int := if m ≤ 2 then y - 1 else y
  let era : Int := (if 0 ≤ y' then y' else y' - 399) / 400
  let yoe : Nat := (y' - era * 400).toNat
  let mp : Nat := if 2 < m then m - 3 else m + 9
  let doy : Nat := (153 * mp + 2) / 5 + d - 1
  let doe : Nat := yoe * 365 + yoe / 4 - yoe / 100 + doy
  era * 146097 + (doe : Int) - 719468

def read2 : List Char → Option (Nat × List Char)
  | c1 :: c2 :: rest =>
    if c1.isDigit && c2.isDigit then some (10 * digVal c1 + digVal c2, rest) else none
  | _ => none

def read4 : List Char → Option (Nat × List Char)
  | c1 :: c2 :: c3 :: c4 :: rest =>
    if c1.isDigit && c2.isDigit && c3.isDigit && c4.isDigit then
      some (1000 * digVal c1 + 100 * digVal c2 + 10 * digVal c3 + digVal c4, rest)
    else none
  | _ => none

def expectChar (c : Char) : List Char → Option (List Char)
  | x :: rest => if x = c then some rest else none
  | [] => none

/-- Parse a trailing UTC offset `±HH:MM`; empty input means no offset
(naive datetime, modelled as UTC). Returns offset seconds. -/
def parseIsoOffset : List Char → Option Int
  | [] => some 0
  | c :: cs =>
    if c = '+' || c = '-' then
      match read2 cs with
      | none => none
      | some (oh, cs) =>
        match expectChar ':' cs with
        | none => none
        | some cs =>
          match read2 cs with
          | none => none
          | some (om, cs) =>
            if cs.isEmpty && oh ≤ 23 && om ≤ 59 then
              some ((if c = '-' then -1 else 1) * ((oh : Int) * 3600 + (om : Int) * 60))
            else none
    else none

/-- Parse `[HH[:MM[:SS]]][±HH:MM]` after the date part. Returns
(seconds within day, offset seconds). -/
def parseIsoTime (cs : List Char) : Option (Int × Int) :=
  match read2 cs with
  | none => none
  | some (h, cs) =>
    if h ≥ 24 then none
    else
      match cs with
      | ':' :: cs' =>
        match read2 cs' with
        | none => none
        | some (mi, cs2) =>
          if mi ≥ 60 then none
          else
            match cs2 with
            | ':' :: cs3 =>
              match read2 cs3 with
              | none => none
              | some (se, cs4) =>
                if se ≥ 60 then none
                else
                  match parseIsoOffset cs4 with
                  | none => none
                  | some off => some ((h : Int) * 3600 + (mi : Int) * 60 + (se : Int), off)
            | rest =>
              match parseIsoOffset rest with
              | none => none
              | some off => some ((h : Int) * 3600 + (mi : Int) * 60, off)
      | rest =>
        match parseIsoOffset rest with
        | none => none
        | some off => some ((h : Int) * 3600, off)

def fromIsoMs (s : String) : Option Int :=
  match read4 s.data with
  | none => none
  | some (y, cs) =>
    if y = 0 then none
    else
      match expectChar '-' cs with
      | none => none
      | some cs =>
        match read2 cs with
        | none => none
        | some (mo, cs) =>
          if mo = 0 || mo > 12 then none
          else
            match expectChar '-' cs with
            | none => none
            | some cs =>
              match read2 cs with
              | none => none
              | some (d, cs) =>
                if d = 0 || d > daysInMonth (y : Int) mo then none
                else
                  let days := daysFromCivil (y : Int) mo d
                  match cs with
                  | [] => some (days * 86400000)
                  | sep :: rest =>
                    if sep = 'T' || sep = ' ' then
                      match parseIsoTime rest with
                      | none => none
                      | some (secs, off) => some ((days * 86400 + secs - off) * 1000)
                    else none

/-! ### `src/main.py` — legacy pipeline -/

/-- `format_timestamp` from `src/main.py`:
```
try:
    dt = datetime.datetime.fromisoformat(timestamp.replace('Z', '+00:00'))
    return str(int(dt.timestamp() * 1000))
except ValueError:
    if len(timestamp) > 12:
        return timestamp
    else:
        return str(int(float(timestamp) * 1000))
```
The `float` call inside the `except` block raises out of the function when
it fails, modelled as `.error`. -/
def format_timestamp (timestamp : String) : Except String String :=
  match fromIsoMs (charReplace timestamp 'Z' "+00:00") with
  | some ms => .ok (toString ms)
  | none =>
    if timestamp.length > 12 then .ok timestamp
    else
      match pyFloat? timestamp with
      | some q => .ok (toString (pyIntOfRat (q * 1000)))
      | none => .error ("could not convert string to float: " ++ timestamp)

/-- Rows produced by `csv.reader(io.StringIO(csv_data))`, restricted to
unquoted fields (no input below contains quoted cells): lines split on
`'\n'` (a trailing final newline yields no extra row, an interior blank
line yields the empty row `[]`), each line split on `','`. -/
def csvRows (s : String) : List (List String) :=
  let ls := splitListOn '\n' s.data
  let ls := if ls.getLast? = some [] then ls.dropLast else ls
  ls.map (fun l => if l.isEmpty then [] else (splitListOn ',' l).map String.mk)

/-- The header-search loop of `parse_influxdb_csv`: skip empty rows and
rows whose first cell starts with `#`; the first remaining row is the
header, the rest are the data rows. -/
def findHeader : List (List String) → Option (List String × List (List String))
  | [] => none
  | row :: rest =>
    match row with
    | [] => findHeader rest
    | c :: _ =>
      if strStartsWith c "#" then findHeader rest
      else some (row, rest)

structure InfluxRecord where
  timestamp : String
  measurement : String
  field : String
  value : String
  tags : List (String × String)
deriving DecidableEq

/-- Python `dict` assignment `d[k] = v` on an insertion-ordered dict
modelled as an association list: update in place if the key exists,
otherwise append. -/
def dictInsertStr (d : List (String × String)) (k v : String) : List (String × String) :=
  if d.any (fun p => p.1 == k) then
    d.map (fun p => if p.1 == k then (k, v) else p)
  else d ++ [(k, v)]

/-- One iteration of the tag-extraction loop of `parse_influxdb_csv`:
```
if not header.startswith('_') and i < len(row) and row[i]:
    tags[header] = row[i]
``` -/
def tagStep (row : List String) (tags : List (String × String)) (p : Nat × String) :
    List (String × String) :=
  if !strStartsWith p.2 "_" && decide (p.1 < row.length) && row.getD p.1 "" != "" then
    dictInsertStr tags p.2 (row.getD p.1 "")
  else tags

/-- The tag-extraction loop of `parse_influxdb_csv`
(`for i, header in enumerate(headers): ...`). -/
def extractTags (headers row : List String) : List (String × String) :=
  headers.enum.foldl (tagStep row) []

def parse_influxdb_csv (csv_data : String) : Except String (List InfluxRecord) :=
  match findHeader (csvRows csv_data) with
  | none => .error "Could not find headers in CSV data"
  | some (headers, dataRows) =>
    match headers.findIdx? (· == "_time"), headers.findIdx? (· == "_measurement"),
          headers.findIdx? (· == "_field"), headers.findIdx? (· == "_value") with
    | some ti, some mi, some fi, some vi =>
      .ok (dataRows.foldl
        (fun acc row =>
          if row.isEmpty || row.length < max (max ti mi) (max fi vi) + 1 then acc
          else acc ++ [{ timestamp := row.getD ti "", measurement := row.getD mi "",
                         field := row.getD fi "", value := row.getD vi "",
                         tags := extractTags headers row }])
        [])
    | _, _, _, _ =>
      .error "CSV data doesn't contain required columns (_time, _measurement, _field, _value)"

/-- One output line of `influx_to_prometheus` given the already-formatted
timestamp: the `_value` cell is spliced in verbatim. -/
def prometheusLine (item : InfluxRecord) (ts : String) : String :=
  let metricName := item.measurement ++ "_" ++ item.field
  let labels := item.tags.map (fun p => p.1 ++ "=\"" ++ p.2 ++ "\"")
  let labelsStr := if labels.isEmpty then "" else "\x7b" ++ joinWith "," labels ++ "\x7d"
  metricName ++ labelsStr ++ " " ++ item.value ++ " " ++ ts

def influx_to_prometheus (csv_data : String) : Except String String := do
  let parsed ← parse_influxdb_csv csv_data
  let lines ← parsed.mapM (fun item => do
    let ts ← format_timestamp item.timestamp
    pure (prometheusLine item ts))
  pure (joinWith "\n" lines)

/-! ### `src/influx2prom/converter.py` — Metric model, Converter, Formatter -/

/-- Scalar values a Generic Record may hold (JSON / CSV cell values). -/
inductive Val where
  | vstr (s : String)
  | vint (n : Int)
  | vnum (q : Rat)
  | vnull
deriving DecidableEq

/-- `PrometheusMetric` from `converter.py`; the Python float `value` is
modelled as an exact rational. -/
structure PrometheusMetric where
  name : String
  value : Rat
  type : String
  labels : List (String × String)
  help : Option String
  timestamp : Option Int
deriving DecidableEq

def VALID_TYPES : List String := ["counter", "gauge", "histogram", "summary"]

/-- Dict lookup `record[k]` / `k in record` on a record with unique keys. -/
def lookupRec (r : List (String × Val)) (k : String) : Option Val :=
  (r.find? (fun p => p.1 == k)).map (·.2)

/-- Python `float(x)` on a record value; `None` raises (`TypeError`),
modelled as `none`. -/
def pyFloatOfVal : Val → Option Rat
  | .vstr s => pyFloat? s
  | .vint n => some (n : Rat)
  | .vnum q => some q
  | .vnull => none

/-- Finite decimal expansion of `rem/den` (at most `fuel` digits),
`none` if it does not terminate within `fuel`. -/
def decimalDigitsAux : Nat → Nat → Nat → Option (List Char)
  | _, 0, _ => some []
  | 0, _, _ => none
  | fuel + 1, rem, den =>
    let r10 := rem * 10
    (decimalDigitsAux fuel (r10 % den) den).map (fun ds => Char.ofNat (48 + r10 / den) :: ds)

/-- Python `str(float)`, modelled for rationals with a terminating decimal
expansion (every value used in this development); CPython's
shortest-round-trip repr agrees on those. Scientific notation for very
large/small magnitudes is not modelled. -/
def formatRat (q : Rat) : String :=
  let sign := if q.num < 0 then "-" else ""
  let ip := q.num.natAbs / q.den
  let rem := q.num.natAbs % q.den
  match decimalDigitsAux 30 rem q.den with
  | some [] => sign ++ toString ip ++ ".0"
  | some ds => sign ++ toString ip ++ "." ++ String.mk ds
  | none => sign ++ toString ip ++ "." ++ toString rem ++ "div" ++ toString q.den

/-- Python `str(x)` on a record value. -/
def pyStrOfVal : Val → String
  | .vstr s => s
  | .vint n => toString n
  | .vnum q => formatRat q
  | .vnull => "None"

/-- The timestamp extraction of `convert_data` for one record:
numeric values are truncated to `int` directly; strings go through
`fromisoformat` (after `Z` replacement) and are silently dropped on
failure. `timestamp_column` must be truthy (non-empty) and present. -/
def tsOfRecord (record : List (String × Val)) : Option String → Option Int
  | none => none
  | some tc =>
    if tc = "" then none
    else
      match lookupRec record tc with
      | none => none
      | some .vnull => none
      | some (.vint n) => some n
      | some (.vnum q) => some (pyIntOfRat q)
      | some (.vstr s) =>
        match fromIsoMs (charReplace s 'Z' "+00:00") with
        | some ms => some ms
        | none => none

/-- The label extraction of `convert_data` for one record. -/
def labelsOfRecord (record : List (String × Val)) (label_columns : List String) :
    List (String × String) :=
  label_columns.foldl
    (fun ls l =>
      match lookupRec record l with
      | some w => if w = .vnull then ls else dictInsertStr ls l (pyStrOfVal w)
      | none => ls)
    []

/-- The per-record body of the `convert_data` loop. -/
def convertRecord (record : List (String × Val)) (metric_name metric_type value_column : String)
    (label_columns : List String) (help_text : Option String) (timestamp_column : Option String) :
    Except String PrometheusMetric :=
  match lookupRec record value_column with
  | none => .error ("Value column '" ++ value_column ++ "' not found in record")
  | some v =>
    match pyFloatOfVal v with
    | none => .error ("Invalid value in column '" ++ value_column ++ "': " ++ pyStrOfVal v)
    | some value =>
      .ok { name := metric_name, value := value, type := metric_type,
            labels := labelsOfRecord record label_columns, help := help_text,
            timestamp := tsOfRecord record timestamp_column }

/-- `InfluxToPromConverter.convert_data`. -/
def convert_data (data : List (List (String × Val))) (metric_name metric_type value_column : String)
    (label_columns : List String) (help_text : Option String) (timestamp_column : Option String) :
    Except String (List PrometheusMetric) :=
  if metric_type ∉ VALID_TYPES then
    .error ("Invalid metric type: " ++ metric_type ++ ". Must be one of: " ++
            joinWith ", " VALID_TYPES)
  else
    data.mapM (fun record =>
      convertRecord record metric_name metric_type value_column label_columns help_text
        timestamp_column)

/-- Grouping key `f"{metric.name}:{metric.type}"`. -/
def metricKey (m : PrometheusMetric) : String := m.name ++ ":" ++ m.type

/-- `metric_groups[key].append(metric)` with dict auto-creation, on an
insertion-ordered dict modelled as an association list. -/
def dictInsertMetric (gs : List (String × List PrometheusMetric)) (m : PrometheusMetric) :
    List (String × List PrometheusMetric) :=
  if gs.any (fun p => p.1 == metricKey m) then
    gs.map (fun p => if p.1 == metricKey m then (p.1, p.2 ++ [m]) else p)
  else gs ++ [(metricKey m, [m])]

def buildGroups (ms : List PrometheusMetric) : List (String × List PrometheusMetric) :=
  ms.foldl dictInsertMetric []

/-- Label-value escaping from `format_metrics`:
`.replace("\\", "\\\\").replace('"', '\\"').replace("\n", "\\n")`. -/
def escape_label_value (v : String) : String :=
  charReplace (charReplace (charReplace v '\\' "\\\\") '"' "\\\"") '\n' "\\n"

/-- Lexicographic `≤` on character lists (Python string comparison by
code points). -/
def charListLe : List Char → List Char → Bool
  | [], _ => true
  | _ :: _, [] => false
  | a :: as, b :: bs => if a < b then true else if b < a then false else charListLe as bs

def strLe (a b : String) : Bool := charListLe a.data b.data

/-- Python tuple comparison on `(key, value)` pairs, as used by
`sorted(metric.labels.items())`. -/
def pairLe (a b : String × String) : Bool :=
  if a.1 = b.1 then strLe a.2 b.2 else strLe a.1 b.1

/-- The label-rendering block of `format_metrics` for one metric. -/
def renderLabels (labels : List (String × String)) : String :=
  if labels.isEmpty then ""
  else
    "\x7b" ++
      joinWith ","
        ((labels.mergeSort pairLe).map
          (fun p => p.1 ++ "=\"" ++ escape_label_value p.2 ++ "\"")) ++
    "\x7d"

/-- One sample line: `f"{metric.name}{labels_str} {metric.value}[ {ts}]"`. -/
def sampleLine (m : PrometheusMetric) : String :=
  match m.timestamp with
  | some ts => m.name ++ renderLabels m.labels ++ " " ++ formatRat m.value ++ " " ++ toString ts
  | none => m.name ++ renderLabels m.labels ++ " " ++ formatRat m.value

/-- The lines emitted for one group: optional `# HELP` (only when the
group's first metric has truthy help text), one `# TYPE`, the samples,
then the separating blank line. -/
def groupBlock (g : List PrometheusMetric) : List String :=
  match g with
  | [] => []
  | first :: _ =>
    (match first.help with
     | some h => if h = "" then [] else ["# HELP " ++ first.name ++ " " ++ h]
     | none => []) ++
    ("# TYPE " ++ first.name ++ " " ++ first.type) ::
    (g.map sampleLine ++ [""])

def formatLinesM (ms : List PrometheusMetric) : List String :=
  (buildGroups ms).flatMap (fun p => groupBlock p.2)

/-- `InfluxToPromConverter.format_metrics`. -/
def format_metrics (ms : List PrometheusMetric) : String :=
  if ms.isEmpty then "" else joinWith "\n" (formatLinesM ms)

/-! ### `src/influx2promql.py` — Query Translator

The `re` searches are modelled as hand-rolled leftmost-match scanners.
Each `match...At` function tries the pattern at the head of the input;
`searchAux` implements `re.search` by trying every start position from the
left. Greedy character classes are implemented by maximal munch; the
patterns below backtrack only where noted. -/

/-- `re.search`: try the matcher at each start position, leftmost first. -/
def searchAux {α : Type} (f : List Char → Option α) : List Char → Option α
  | [] => none
  | c :: rest =>
    match f (c :: rest) with
    | some r => some r
    | none => searchAux f rest

/-- Strip a literal prefix. -/
def expectLit : List Char → List Char → Option (List Char)
  | [], cs => some cs
  | _ :: _, [] => none
  | p :: ps, c :: cs => if p = c then expectLit ps cs else none

/-- Strip a literal prefix, case-insensitively (for `re.IGNORECASE`). -/
def expectLitCI : List Char → List Char → Option (List Char)
  | [], cs => some cs
  | _ :: _, [] => none
  | p :: ps, c :: cs => if p.toLower = c.toLower then expectLitCI ps cs else none

def skipWs (cs : List Char) : List Char := cs.dropWhile isPyWhitespace

/-- `\s+`: at least one whitespace character. -/
def skipWs1 : List Char → Option (List Char)
  | c :: cs => if isPyWhitespace c then some (cs.dropWhile isPyWhitespace) else none
  | [] => none

/-- A nonempty maximal run of characters satisfying `p` (`[...]+`). -/
def takeWhile1 (p : Char → Bool) (cs : List Char) : Option (List Char × List Char) :=
  let run := cs.takeWhile p
  if run.isEmpty then none else some (run, cs.dropWhile p)

/-- Greedy `\s{minWs,}` followed by a greedy nonempty character class that
contains whitespace, as in `\s+([^FROM]+)` or `\s*([^,\)]+)`. When the
class run after the whitespace is empty, the regex engine gives one
whitespace character back to the group (further give-backs only lengthen
the group without moving its end, so the first one reported wins).
Returns (group, rest after the group). -/
def wsThenClass (minWs : Nat) (cls : Char → Bool) (cs : List Char) :
    Option (List Char × List Char) :=
  let w := cs.takeWhile isPyWhitespace
  let rest := cs.dropWhile isPyWhitespace
  if w.length < minWs then none
  else
    let r := rest.takeWhile cls
    if !r.isEmpty then some (r, rest.dropWhile cls)
    else if minWs + 1 ≤ w.length then
      match w.getLast? with
      | some c => some ([c], rest)
      | none => none
    else none

/-- `range\(start:\s*([^,\)]+)(?:,\s*stop:\s*([^,\)]+))?\)` at the head.
After the maximal munch of group 1 the next character is `,`, `)` or
nothing, so no further backtracking into the group is possible. -/
def matchRangeAt (cs : List Char) : Option (List Char × Option (List Char)) :=
  match expectLit "range(start:".data cs with
  | none => none
  | some cs =>
    match wsThenClass 0 (fun c => c ≠ ',' && c ≠ ')') cs with
    | none => none
    | some (g1, cs) =>
      match cs with
      | ')' :: _ => some (g1, none)
      | ',' :: cs =>
        match expectLit "stop:".data (skipWs cs) with
        | none => none
        | some cs =>
          match wsThenClass 0 (fun c => c ≠ ',' && c ≠ ')') cs with
          | none => none
          | some (g2, cs) =>
            match cs with
            | ')' :: _ => some (g1, some g2)
            | _ => none
      | _ => none

/-- `_measurement\s*==\s*"([^"]+)"` at the head. -/
def matchMeasurementAt (cs : List Char) : Option (List Char) :=
  match expectLit "_measurement".data cs with
  | none => none
  | some cs =>
    match expectLit "==".data (skipWs cs) with
    | none => none
    | some cs =>
      match expectChar '"' (skipWs cs) with
      | none => none
      | some cs =>
        match takeWhile1 (fun c => c ≠ '"') cs with
        | none => none
        | some (v, cs) =>
          match expectChar '"' cs with
          | none => none
          | some _ => some v

/-- `_field\s*==\s*"([^"]+)"` at the head. -/
def matchFieldAt (cs : List Char) : Option (List Char) :=
  match expectLit "_field".data cs with
  | none => none
  | some cs =>
    match expectLit "==".data (skipWs cs) with
    | none => none
    | some cs =>
      match expectChar '"' (skipWs cs) with
      | none => none
      | some cs =>
        match takeWhile1 (fun c => c ≠ '"') cs with
        | none => none
        | some (v, cs) =>
          match expectChar '"' cs with
          | none => none
          | some _ => some v

/-- The tail `\s*==\s*"([^"]+)"\)` of the filter pattern, after group 1. -/
def parseFilterTail (cs : List Char) : Option (List Char × List Char) :=
  match expectLit "==".data (skipWs cs) with
  | none => none
  | some cs =>
    match expectChar '"' (skipWs cs) with
    | none => none
    | some cs =>
      match takeWhile1 (fun c => c ≠ '"') cs with
      | none => none
      | some (v, cs) =>
        match expectChar '"' cs with
        | none => none
        | some cs =>
          match expectChar ')' cs with
          | none => none
          | some cs => some (v, cs)

/-- Greedy `([^\s]+)` followed by `parseFilterTail`, with regex
backtracking: prefer the longest group extension, then shrink. Returns
(group 1, group 2, rest after the match). -/
def filterG1Try (g1 : List Char) (cs : List Char) : Option (List Char × List Char × List Char) :=
  match cs with
  | [] =>
    if g1.isEmpty then none
    else (parseFilterTail []).map (fun p => (g1, p.1, p.2))
  | c :: rest =>
    if isPyWhitespace c then
      if g1.isEmpty then none
      else (parseFilterTail (c :: rest)).map (fun p => (g1, p.1, p.2))
    else
      match filterG1Try (g1 ++ [c]) rest with
      | some r => some r
      | none =>
        if g1.isEmpty then none
        else (parseFilterTail (c :: rest)).map (fun p => (g1, p.1, p.2))

/-- `filter\(fn:\s*\(r\)\s*=>\s*r\.([^\s]+)\s*==\s*"([^"]+)"\)` at the
head; returns (tag, value, rest after the match). -/
def matchFilterAt (cs : List Char) : Option (List Char × List Char × List Char) :=
  match expectLit "filter(fn:".data cs with
  | none => none
  | some cs =>
    match expectLit "(r)".data (skipWs cs) with
    | none => none
    | some cs =>
      match expectLit "=>".data (skipWs cs) with
      | none => none
      | some cs =>
        match expectLit "r.".data (skipWs cs) with
        | none => none
        | some cs => filterG1Try [] cs

/-- `re.finditer` for the filter pattern: scan left to right, resuming
after the end of each match. `fuel` bounds the recursion (each step
consumes at least one character). -/
def findFiltersAux : Nat → List Char → List (String × String)
  | 0, _ => []
  | _ + 1, [] => []
  | fuel + 1, c :: rest =>
    match matchFilterAt (c :: rest) with
    | some (tag, v, rem) => (String.mk tag, String.mk v) :: findFiltersAux fuel rem
    | none => findFiltersAux fuel rest

def findFilters (cs : List Char) : List (String × String) :=
  findFiltersAux cs.length cs

/-- `(mean|sum|count|min|max|stddev)\(\)` at the head (alternatives in
regex order). -/
def matchAggAt (cs : List Char) : Option String :=
  (["mean", "sum", "count", "min", "max", "stddev"].find?
    (fun w => (expectLit (w ++ "()").data cs).isSome))

/-- The Flux→PromQL aggregation map. -/
def aggMapFlux (f : String) : String :=
  if f = "mean" then "avg"
  else if f = "sum" then "sum"
  else if f = "count" then "count"
  else if f = "min" then "min"
  else if f = "max" then "max"
  else if f = "stddev" then "stddev"
  else ""

/-- `convert_flux_to_promql`. The bucket extraction of the source is
computed but never used and is therefore not modelled. The
`.replace('h','h')…` chain applied to the start time is the identity and
is dropped. -/
def convert_flux_to_promql (flux_query : String) : String :=
  let cs := flux_query.data
  let time_range :=
    match searchAux matchRangeAt cs with
    | some (g1, _) =>
      if strStartsWith (String.mk g1) "-" then "[" ++ String.mk g1 ++ "]" else ""
    | none => ""
  let metric_name :=
    match searchAux matchMeasurementAt cs, searchAux matchFieldAt cs with
    | some m, some f => String.mk m ++ "_" ++ String.mk f
    | _, _ => ""
  let filters :=
    ((findFilters cs).filter (fun p => p.1 ∉ (["_measurement", "_field"] : List String))).map
      (fun p => p.1 ++ "=\"" ++ p.2 ++ "\"")
  let aggregation :=
    match searchAux matchAggAt cs with
    | some a => aggMapFlux a
    | none => ""
  let promql := metric_name
  let promql := if !filters.isEmpty then promql ++ "\x7b" ++ joinWith ", " filters ++ "\x7d"
                else promql
  let promql := if time_range ≠ "" then promql ++ time_range else promql
  if aggregation ≠ "" then aggregation ++ "(" ++ promql ++ ")" else promql

/-- `SELECT\s+([^FROM]+)FROM\s+([^\s;]+)` with `re.IGNORECASE` at the
head. Group 1 excludes the letters f/r/o/m in either case, so after its
maximal munch the literal `FROM` either matches immediately or the whole
position fails (shrinking group 1 would put a non-`f` character under the
`F`). -/
def matchSelectAt (cs : List Char) : Option (List Char × List Char) :=
  match expectLitCI "select".data cs with
  | none => none
  | some cs =>
    match wsThenClass 1 (fun c => c.toLower ∉ (['f', 'r', 'o', 'm'] : List Char)) cs with
    | none => none
    | some (g1, cs) =>
      match expectLitCI "from".data cs with
        | none => none
        | some cs =>
          match skipWs1 cs with
          | none => none
          | some cs =>
            match takeWhile1 (fun c => !isPyWhitespace c && c ≠ ';') cs with
            | none => none
            | some (g2, _) => some (g1, g2)

/-- Terminator of the lazy `WHERE` group:
`(?:GROUP BY|ORDER BY|LIMIT|$)` (case-insensitive); `$` also matches just
before a final newline. -/
def whereTerminator (cs : List Char) : Bool :=
  (expectLitCI "GROUP BY".data cs).isSome || (expectLitCI "ORDER BY".data cs).isSome ||
  (expectLitCI "LIMIT".data cs).isSome || cs.isEmpty || cs = ['\n']

/-- Lazy `(.+?)` before a `whereTerminator`: the shortest nonempty prefix
of non-newline characters whose suffix is a terminator. -/
def whereLazyGroup : Nat → List Char → List Char → Option (List Char)
  | 0, _, _ => none
  | fuel + 1, acc, cs =>
    match cs with
    | [] => none
    | c :: rest =>
      if c = '\n' then none
      else if whereTerminator rest then some (acc ++ [c])
      else whereLazyGroup fuel (acc ++ [c]) rest

/-- The `\s+` give-back loop before the lazy group: try the maximal
whitespace run first, then hand trailing whitespace characters back to the
group one at a time (at least one whitespace character must remain).
`wrev` holds the characters still available to give back, nearest first. -/
def whereTries : List Char → List Char → Option (List Char)
  | wrev, cur =>
    match whereLazyGroup cur.length [] cur with
    | some g => some g
    | none =>
      match wrev with
      | [] => none
      | c :: rest => whereTries rest (c :: cur)

/-- `WHERE\s+(.+?)(?:GROUP BY|ORDER BY|LIMIT|$)` (IGNORECASE) at the head. -/
def matchWhereAt (cs : List Char) : Option (List Char) :=
  match expectLitCI "where".data cs with
  | none => none
  | some cs =>
    let w := cs.takeWhile isPyWhitespace
    let rest := cs.dropWhile isPyWhitespace
    if w.isEmpty then none
    else whereTries (w.reverse.take (w.length - 1)) rest

/-- `time\s*(>=|>|<=|<)\s*([^\s)]+)` (IGNORECASE) at the head; returns
group 2 (the operator, group 1, is never used by the caller afterwards
except being bound). -/
def matchTimeAt (cs : List Char) : Option (List Char) :=
  match expectLitCI "time".data cs with
  | none => none
  | some cs =>
    let cs := skipWs cs
    let op : Option (List Char) :=
      match cs with
      | '>' :: '=' :: rest => some rest
      | '>' :: rest => some rest
      | '<' :: '=' :: rest => some rest
      | '<' :: rest => some rest
      | _ => none
    match op with
    | none => none
    | some cs =>
      match takeWhile1 (fun c => !isPyWhitespace c && c ≠ ')') (skipWs cs) with
      | none => none
      | some (g2, _) => some g2

def isWordChar (c : Char) : Bool :=
  ('a' ≤ c && c ≤ 'z') || ('A' ≤ c && c ≤ 'Z') || ('0' ≤ c && c ≤ '9') || c = '_'

/-- `([a-zA-Z0-9_]+)\s*=\s*'([^']+)'` at the head; returns
(tag, value, rest after the match). -/
def matchTagAt (cs : List Char) : Option (List Char × List Char × List Char) :=
  match takeWhile1 isWordChar cs with
  | none => none
  | some (tag, cs) =>
    match expectChar '=' (skipWs cs) with
    | none => none
    | some cs =>
      match expectChar '\'' (skipWs cs) with
      | none => none
      | some cs =>
        match takeWhile1 (fun c => c ≠ '\'') cs with
        | none => none
        | some (v, cs) =>
          match expectChar '\'' cs with
          | none => none
          | some cs => some (tag, v, cs)

def findTagsAux : Nat → List Char → List (String × String)
  | 0, _ => []
  | _ + 1, [] => []
  | fuel + 1, c :: rest =>
    match matchTagAt (c :: rest) with
    | some (tag, v, rem) => (String.mk tag, String.mk v) :: findTagsAux fuel rem
    | none => findTagsAux fuel rest

def findTags (cs : List Char) : List (String × String) :=
  findTagsAux cs.length cs

/-- `([a-zA-Z0-9_]+)\(([^)]*)\)` at the head; returns (name, argument). -/
def matchFunctionAt (cs : List Char) : Option (List Char × List Char) :=
  match takeWhile1 isWordChar cs with
  | none => none
  | some (g1, cs) =>
    match expectChar '(' cs with
    | none => none
    | some cs =>
      let g2 := cs.takeWhile (fun c => c ≠ ')')
      match expectChar ')' (cs.dropWhile (fun c => c ≠ ')')) with
      | none => none
      | some _ => some (g1, g2)

/-- `now\(\)\s*-\s*(\d+)([hmd])` at the head. -/
def matchDurationAt (cs : List Char) : Option (List Char × Char) :=
  match expectLit "now()".data cs with
  | none => none
  | some cs =>
    match expectChar '-' (skipWs cs) with
    | none => none
    | some cs =>
      match takeWhile1 Char.isDigit (skipWs cs) with
      | none => none
      | some (ds, cs) =>
        match cs with
        | u :: _ => if u = 'h' || u = 'm' || u = 'd' then some (ds, u) else none
        | [] => none

/-- The InfluxQL→PromQL aggregation map (no `stddev` entry). -/
def funcMapInfluxql (f : String) : String :=
  if f = "mean" then "avg"
  else if f = "sum" then "sum"
  else if f = "count" then "count"
  else if f = "min" then "min"
  else if f = "max" then "max"
  else ""

/-- `convert_influxql_to_promql`. The `GROUP BY` search of the source is
computed but never used and is not modelled. -/
def convert_influxql_to_promql (influxql_query : String) : String :=
  let cs := influxql_query.data
  match searchAux matchSelectAt cs with
  | none => "Error: Could not parse InfluxQL SELECT statement"
  | some (g1, g2) =>
    let select_clause := pyStrip (String.mk g1)
    let measurement := pyStrip (String.mk g2)
    let (metric_name, promql_function) :=
      match searchAux matchFunctionAt select_clause.data with
      | some (fn, arg) =>
        let func_name := pyLower (String.mk fn)
        let field := pyStripChars (String.mk arg) ['"', '\'']
        (measurement ++ "_" ++ field, funcMapInfluxql func_name)
      | none =>
        let field := pyStripChars select_clause ['"', '\'']
        (measurement ++ "_" ++ field, "")
    let (filters, time_range) :=
      match searchAux matchWhereAt cs with
      | none => ([], "")
      | some wc =>
        let where_clause := pyStrip (String.mk wc)
        let time_range :=
          match searchAux matchTimeAt where_clause.data with
          | none => ""
          | some tv =>
            let time_value := String.mk tv
            if strContains time_value "now()" && strContains time_value "-" then
              match searchAux matchDurationAt time_value.data with
              | some (ds, u) => "[" ++ String.mk ds ++ String.mk [u] ++ "]"
              | none => ""
            else ""
        let filters := (findTags where_clause.data).map
          (fun (p : String × String) => p.1 ++ "=\"" ++ p.2 ++ "\"")
        (filters, time_range)
    let promql := metric_name
    let promql := if !filters.isEmpty then promql ++ "\x7b" ++ joinWith ", " filters ++ "\x7d"
                  else promql
    let promql := if time_range ≠ "" then promql ++ time_range else promql
    if promql_function ≠ "" then promql_function ++ "(" ++ promql ++ ")" else promql

inductive QueryType where
  | flux
  | influxql
  | unknown
deriving DecidableEq

/-- `detect_query_type`. -/
def detect_query_type (query : String) : QueryType :=
  if strStartsWith (pyLower (pyStrip query)) "from" || strContains query "|>" then .flux
  else if strStartsWith (pyUpper (pyStrip query)) "SELECT" then .influxql
  else .unknown

/-- `influx_to_promql`; `force_type` is `None` or one of the argparse
choices `flux` / `influxql`. -/
def influx_to_promql (query : String) (force_type : Option QueryType) : String :=
  let query_type := match force_type with | some t => t | none => detect_query_type query
  match query_type with
  | .flux => convert_flux_to_promql query
  | .influxql => convert_influxql_to_promql query
  | .unknown => "Error: Could not determine query type. Please specify using --type"

/-! ### Specification-side definitions used by the theorems -/

/-- The per-character effect of the three chained `replace` calls of the
label-value escaping (backslash first, then quote, then newline). -/
def escChar (c : Char) : List Char :=
  if c = '\\' then ['\\', '\\']
  else if c = '"' then ['\\', '"']
  else if c = '\n' then ['\\', 'n']
  else [c]

/-- Inverse of the label-value escaping: decode `\\`, `\"` and `\n`
pairs; any other character is literal. -/
def unescapeChars : List Char → List Char
  | [] => []
  | [c] => [c]
  | c1 :: c2 :: rest =>
    if c1 = '\\' && (c2 = '\\' || c2 = '"' || c2 = 'n') then
      (if c2 = '\\' then '\\' else if c2 = '"' then '"' else '\n') :: unescapeChars rest
    else c1 :: unescapeChars (c2 :: rest)

def unescape_label_value (s : String) : String := ⟨unescapeChars s.data⟩

/-- The keys of a metric's grouped-formatter output, in first-seen order —
the insertion order of the Python `metric_groups` dict. -/
def seenKeys (ms : List PrometheusMetric) : List String :=
  ms.foldl (fun acc m => if metricKey m ∈ acc then acc else acc ++ [metricKey m]) []

/-! ### Theorems -/

/-- C1: Legacy end-to-end path: the annotated CSV with the two cpu-usage
rows for `host=server01` converts to exactly the two expected Prometheus
lines, joined by a single newline, in input order. -/
theorem c1_legacy_end_to_end :
    influx_to_prometheus
      ("#group,false,false,true,true,false\n#datatype,string,string,string,double,string\n" ++
       "_time,_measurement,_field,_value,host\n" ++
       "2023-01-01T06:00:00Z,cpu,usage_user,90.5,server01\n" ++
       "2023-01-01T07:00:00Z,cpu,usage_system,91.2,server01\n") =
    .ok ("cpu_usage_user\x7bhost=\"server01\"\x7d 90.5 1672552800000\n" ++
         "cpu_usage_system\x7bhost=\"server01\"\x7d 91.2 1672556400000") := by
  rfl

/-- C10: `detect_query_type` checks the Flux conditions first: any query
containing `|>` is detected as Flux, even one whose trimmed text starts
with `SELECT`; `influxql` is only returned when the trimmed uppercased
query starts with `SELECT` and no `|>` occurs. -/
theorem c10_detect_order :
    (∀ q : String, strContains q "|>" = true → detect_query_type q = .flux) ∧
    (∀ q : String, detect_query_type q = .influxql →
      strStartsWith (pyUpper (pyStrip q)) "SELECT" = true ∧ strContains q "|>" = false) := by
  constructor
  · intro q h
    unfold detect_query_type
    rw [h]
    simp
  · intro q h
    unfold detect_query_type at h
    by_cases h1 : (strStartsWith (pyLower (pyStrip q)) "from" || strContains q "|>") = true
    · rw [if_pos h1] at h
      exact QueryType.noConfusion h
    · rw [if_neg h1] at h
      by_cases h2 : strStartsWith (pyUpper (pyStrip q)) "SELECT" = true
      · refine ⟨h2, ?_⟩
        cases hc : strContains q "|>" with
        | false => rfl
        | true => exact absurd (by rw [hc]; simp) h1
      · rw [if_neg h2] at h
        exact QueryType.noConfusion h

/-- C10 witness: a query that starts with `SELECT` but contains `|>` is
detected as Flux. -/
theorem c10_detect_order_witness :
    strContains "SELECT x |> y" "|>" = true ∧ detect_query_type "SELECT x |> y" = .flux :=
  ⟨by decide, c10_detect_order.1 "SELECT x |> y" (by decide)⟩

/-- C8: `influx_to_promql` is a total string-to-string function (the model
has no error channel because no code path in the source raises): an
undetectable query yields the descriptive error string, forcing `flux` on
an InfluxQL query yields a best-effort (here empty) result, and forcing
`influxql` on a Flux query yields the SELECT-parse error string — all
returned values, never exceptions. -/
theorem c8_soft_failure :
    (∀ q : String, detect_query_type q = .unknown →
      influx_to_promql q none =
        "Error: Could not determine query type. Please specify using --type") ∧
    influx_to_promql "SELECT usage_user FROM cpu WHERE host = 'server01'" (some .flux) = "" ∧
    influx_to_promql "from(bucket: \"system\") |> range(start: -1h)" (some .influxql) =
      "Error: Could not parse InfluxQL SELECT statement" := by
  refine ⟨?_, by rfl, by rfl⟩
  intro q h
  unfold influx_to_promql
  rw [h]

/-- C8 witness: an unclassifiable query gets the soft-failure string. -/
theorem c8_soft_failure_witness :
    detect_query_type "this is not a valid query" = .unknown ∧
    influx_to_promql "this is not a valid query" none =
      "Error: Could not determine query type. Please specify using --type" :=
  ⟨by decide, c8_soft_failure.1 "this is not a valid query" (by decide)⟩

/-- C5 counterexample: `"abcdefghijklm"` (13 characters) fails the ISO
parse and its numeric interpretation also fails, yet `format_timestamp`
returns it unchanged instead of signalling a hard error — refuting the
claim that every such input produces an error. -/
theorem c5_counterexample :
    fromIsoMs (charReplace "abcdefghijklm" 'Z' "+00:00") = none ∧
    pyFloat? "abcdefghijklm" = none ∧
    format_timestamp "abcdefghijklm" = .ok "abcdefghijklm" :=
  ⟨rfl, rfl, rfl⟩

/-- C5 (amended): the hard error for doubly-unparseable input arises only
for inputs of length at most 12; longer inputs that fail the ISO parse are
passed through unchanged with no numeric validation at all. -/
theorem c5_hard_error_only_short (ts : String)
    (hiso : fromIsoMs (charReplace ts 'Z' "+00:00") = none) :
    (ts.length ≤ 12 → pyFloat? ts = none →
      format_timestamp ts = .error ("could not convert string to float: " ++ ts)) ∧
    (12 < ts.length → format_timestamp ts = .ok ts) := by
  unfold format_timestamp
  rw [hiso]
  constructor
  · intro hlen hfl
    rw [if_neg (by omega), hfl]
  · intro hlen
    rw [if_pos (by omega)]

/-- C5 witness: the short input `"abc"` fails both parses and produces the
hard error; the 13-character input of the counterexample is passed
through. -/
theorem c5_hard_error_only_short_witness :
    fromIsoMs (charReplace "abc" 'Z' "+00:00") = none ∧
    format_timestamp "abc" = .error ("could not convert string to float: " ++ "abc") ∧
    format_timestamp "abcdefghijklm" = .ok "abcdefghijklm" :=
  ⟨rfl,
   (c5_hard_error_only_short "abc" rfl).1 (by decide) rfl,
   (c5_hard_error_only_short "abcdefghijklm" rfl).2 (by decide)⟩

/-- Digits are not Python whitespace. -/
theorem digit_not_ws (c : Char) (h : c.isDigit = true) : isPyWhitespace c = false := by
  cases hws : isPyWhitespace c with
  | false => rfl
  | true =>
    exfalso
    unfold isPyWhitespace at hws
    simp only [Bool.or_eq_true, decide_eq_true_eq] at hws
    obtain ((((rfl | rfl) | rfl) | rfl) | rfl) | rfl := hws <;> exact absurd h (by decide)

theorem dropWhile_eq_self_of {p : Char → Bool} {l : List Char} (h : ∀ c ∈ l, p c = false) :
    l.dropWhile p = l := by
  cases l with
  | nil => rfl
  | cons c cs =>
    have hc := h c (List.mem_cons_self c cs)
    simp [List.dropWhile_cons, hc]

theorem takeWhile_eq_self_of {p : Char → Bool} {l : List Char} (h : ∀ c ∈ l, p c = true) :
    l.takeWhile p = l := by
  induction l with
  | nil => rfl
  | cons c cs ih =>
    have hc := h c (List.mem_cons_self c cs)
    have ht := ih fun x hx => h x (List.mem_cons_of_mem c hx)
    simp [List.takeWhile_cons, hc, ht]

theorem dropWhile_eq_nil_of {p : Char → Bool} {l : List Char} (h : ∀ c ∈ l, p c = true) :
    l.dropWhile p = [] := by
  induction l with
  | nil => rfl
  | cons c cs ih =>
    have hc := h c (List.mem_cons_self c cs)
    have ht := ih fun x hx => h x (List.mem_cons_of_mem c hx)
    simp [List.dropWhile_cons, hc, ht]

/-- `str.strip()` is the identity on all-digit strings. -/
theorem pyStrip_of_digits (s : String) (h : ∀ c ∈ s.data, c.isDigit = true) :
    pyStrip s = s := by
  unfold pyStrip
  have h1 : ∀ c ∈ s.data, isPyWhitespace c = false := fun c hc => digit_not_ws c (h c hc)
  rw [dropWhile_eq_self_of h1,
      dropWhile_eq_self_of (fun c hc => h1 c (List.mem_reverse.mp hc)),
      List.reverse_reverse]

theorem stripSign_of_digit (c : Char) (cs : List Char) (h : c.isDigit = true) :
    stripSign (c :: cs) = (1, c :: cs) := by
  have h1 : c ≠ '+' := by rintro rfl; exact absurd h (by decide)
  have h2 : c ≠ '-' := by rintro rfl; exact absurd h (by decide)
  simp [stripSign, h1, h2]

/-- `float(...)` on a nonempty all-digit character list yields its decimal
value. -/
theorem pyFloatCore_digits (cs : List Char) (h0 : cs ≠ []) (h : ∀ c ∈ cs, c.isDigit = true) :
    pyFloatCore cs = some ((natOfDigits cs : Nat) : Rat) := by
  obtain ⟨c, cs', rfl⟩ := List.exists_cons_of_ne_nil h0
  unfold pyFloatCore takeDigits
  rw [stripSign_of_digit c cs' (h c (List.mem_cons_self c cs'))]
  simp only [takeWhile_eq_self_of h, dropWhile_eq_nil_of h]
  norm_num [fracPart, parseExpPart, applyExp, pow10, natOfDigits]

/-- `float(...)` on a nonempty all-digit string yields its decimal value. -/
theorem pyFloat_digits (s : String) (h0 : s ≠ "") (h : ∀ c ∈ s.data, c.isDigit = true) :
    pyFloat? s = some ((natOfDigits s.data : Nat) : Rat) := by
  unfold pyFloat?
  rw [pyStrip_of_digits s h]
  refine pyFloatCore_digits s.data ?_ h
  intro hd
  apply h0
  cases s
  simp only at hd
  rw [hd]

theorem pyIntOfRat_natCast (k : Nat) : pyIntOfRat ((k : Nat) : Rat) = (k : Int) := by
  unfold pyIntOfRat
  rw [Rat.num_natCast, Rat.den_natCast]
  simp [Int.tdiv_one]

/-- C6: an all-digit string that fails ISO parsing is multiplied by 1000
as epoch seconds when it has at most 12 digits, and passed through
unchanged when it has 13 or more digits — the boundary lies exactly
between 12 and 13 digits. -/
theorem c6_digit_boundary (ts : String) (h0 : ts ≠ "")
    (hd : ∀ c ∈ ts.data, c.isDigit = true)
    (hiso : fromIsoMs (charReplace ts 'Z' "+00:00") = none) :
    (ts.length ≤ 12 →
      format_timestamp ts = .ok (toString ((natOfDigits ts.data * 1000 : Nat) : Int))) ∧
    (13 ≤ ts.length → format_timestamp ts = .ok ts) := by
  constructor
  · intro hlen
    have hc : ((natOfDigits ts.data : Nat) : Rat) * 1000 =
        ((natOfDigits ts.data * 1000 : Nat) : Rat) := by push_cast; ring
    simp only [format_timestamp, hiso]
    rw [if_neg (by omega)]
    simp only [pyFloat_digits ts h0 hd, hc, pyIntOfRat_natCast]
  · intro hlen
    simp only [format_timestamp, hiso]
    rw [if_pos (by omega)]

/-- C6 witness: a 12-digit input is multiplied by 1000; a 13-digit input
is passed through unchanged. -/
theorem c6_digit_boundary_witness :
    format_timestamp "999999999999" = .ok "999999999999000" ∧
    format_timestamp "9999999999999" = .ok "9999999999999" := by
  constructor
  · have h := (c6_digit_boundary "999999999999" (by decide) (by decide) rfl).1 (by decide)
    rw [h]
    rfl
  · exact (c6_digit_boundary "9999999999999" (by decide) (by decide) rfl).2 (by decide)

theorem charReplaceList_cons (c : Char) (cs : List Char) (p : Char) (r : List Char) :
    charReplaceList (c :: cs) p r = (if c = p then r else [c]) ++ charReplaceList cs p r := by
  simp [charReplaceList]

theorem charReplaceList_append (l1 l2 : List Char) (p : Char) (r : List Char) :
    charReplaceList (l1 ++ l2) p r = charReplaceList l1 p r ++ charReplaceList l2 p r := by
  simp [charReplaceList]

/-- The chained `replace` calls act per character. -/
theorem escape_chain (cs : List Char) :
    charReplaceList (charReplaceList (charReplaceList cs '\\' ['\\', '\\']) '"' ['\\', '"'])
      '\n' ['\\', 'n'] = cs.flatMap escChar := by
  induction cs with
  | nil => rfl
  | cons c cs ih =>
    rw [charReplaceList_cons, charReplaceList_append, charReplaceList_append,
        List.flatMap_cons, ← ih]
    congr 1
    by_cases h1 : c = '\\'
    · subst h1; rfl
    · by_cases h2 : c = '"'
      · subst h2; rfl
      · by_cases h3 : c = '\n'
        · subst h3; rfl
        · simp [escChar, h1, h2, h3, charReplaceList]

theorem escape_data (v : String) :
    (escape_label_value v).data = v.data.flatMap escChar := by
  unfold escape_label_value charReplace
  exact escape_chain v.data

/-- `escChar` produces a prefix-free code, decoded by `unescapeChars`. -/
theorem unescape_escape_chars (cs : List Char) :
    unescapeChars (cs.flatMap escChar) = cs := by
  induction cs with
  | nil => rfl
  | cons c cs ih =>
    rw [List.flatMap_cons]
    by_cases h1 : c = '\\'
    · subst h1
      show unescapeChars ('\\' :: '\\' :: cs.flatMap escChar) = '\\' :: cs
      simp [unescapeChars, ih]
    · by_cases h2 : c = '"'
      · subst h2
        show unescapeChars ('\\' :: '"' :: cs.flatMap escChar) = '"' :: cs
        simp [unescapeChars, ih]
      · by_cases h3 : c = '\n'
        · subst h3
          show unescapeChars ('\\' :: 'n' :: cs.flatMap escChar) = '\n' :: cs
          simp [unescapeChars, ih]
        · have hesc : escChar c = [c] := by simp [escChar, h1, h2, h3]
          rw [hesc]
          cases hfm : cs.flatMap escChar with
          | nil =>
            have hcs : cs = [] := by
              cases cs with
              | nil => rfl
              | cons d ds =>
                exfalso
                rw [List.flatMap_cons] at hfm
                have hne : escChar d ≠ [] := by
                  by_cases g1 : d = '\\'
                  · simp [escChar, g1]
                  · by_cases g2 : d = '"'
                    · simp [escChar, g1, g2]
                    · by_cases g3 : d = '\n'
                      · simp [escChar, g1, g2, g3]
                      · simp [escChar, g1, g2, g3]
                exact hne (List.append_eq_nil.mp hfm).1
            subst hcs
            rw [List.append_nil]
            rfl
          | cons d rest =>
            have step : unescapeChars (c :: d :: rest) = c :: unescapeChars (d :: rest) := by
              simp [unescapeChars, h1]
            rw [List.singleton_append, step, ← hfm, ih]

/-- Escaping loses no information: the original label value is recovered
by the inverse decoding. -/
theorem unescape_escape (v : String) :
    unescape_label_value (escape_label_value v) = v := by
  unfold unescape_label_value
  rw [escape_data, unescape_escape_chars]

theorem charListLe_refl (l : List Char) : charListLe l l = true := by
  induction l with
  | nil => rfl
  | cons c cs ih => simp [charListLe, ih]

theorem charListLe_total (a b : List Char) : (charListLe a b || charListLe b a) = true := by
  induction a generalizing b with
  | nil => simp [charListLe]
  | cons x xs ih =>
    cases b with
    | nil => simp [charListLe]
    | cons y ys =>
      rcases lt_trichotomy x y with hxy | hxy | hxy
      · simp [charListLe, hxy, not_lt_of_lt hxy]
      · subst hxy
        simp [charListLe, lt_irrefl, ih ys]
      · simp [charListLe, hxy, not_lt_of_lt hxy]

theorem charListLe_trans (a b c : List Char) (h1 : charListLe a b = true)
    (h2 : charListLe b c = true) : charListLe a c = true := by
  induction a generalizing b c with
  | nil => rfl
  | cons x xs ih =>
    cases b with
    | nil => simp [charListLe] at h1
    | cons y ys =>
      cases c with
      | nil => simp [charListLe] at h2
      | cons z zs =>
        simp only [charListLe] at h1 h2 ⊢
        rcases lt_trichotomy x y with hxy | hxy | hxy
        · rcases lt_trichotomy y z with hyz | hyz | hyz
          · simp [lt_trans hxy hyz]
          · subst hyz; simp [hxy]
          · rw [if_neg (not_lt_of_lt hyz), if_pos hyz] at h2
            exact absurd h2 (by simp)
        · subst hxy
          rcases lt_trichotomy x z with hyz | hyz | hyz
          · simp [hyz]
          · subst hyz
            rw [if_neg (lt_irrefl x), if_neg (lt_irrefl x)] at h1 h2
            simp only [if_neg (lt_irrefl x)]
            exact ih ys zs h1 h2
          · rw [if_neg (not_lt_of_lt hyz), if_pos hyz] at h2
            exact absurd h2 (by simp)
        · rw [if_neg (not_lt_of_lt hxy), if_pos hxy] at h1
          exact absurd h1 (by simp)

theorem charListLe_antisymm (a b : List Char) (h1 : charListLe a b = true)
    (h2 : charListLe b a = true) : a = b := by
  induction a generalizing b with
  | nil =>
    cases b with
    | nil => rfl
    | cons y ys => simp [charListLe] at h2
  | cons x xs ih =>
    cases b with
    | nil => simp [charListLe] at h1
    | cons y ys =>
      simp only [charListLe] at h1 h2
      rcases lt_trichotomy x y with hxy | hxy | hxy
      · rw [if_neg (not_lt_of_lt hxy), if_pos hxy] at h2
        exact absurd h2 (by simp)
      · subst hxy
        rw [if_neg (lt_irrefl x), if_neg (lt_irrefl x)] at h1 h2
        rw [ih ys h1 h2]
      · rw [if_neg (not_lt_of_lt hxy), if_pos hxy] at h1
        exact absurd h1 (by simp)

theorem strLe_refl (a : String) : strLe a a = true := charListLe_refl a.data

theorem pairLe_total (a b : String × String) : (pairLe a b || pairLe b a) = true := by
  unfold pairLe
  by_cases h : a.1 = b.1
  · rw [if_pos h, if_pos h.symm]
    exact charListLe_total a.2.data b.2.data
  · rw [if_neg h, if_neg (fun hh => h hh.symm)]
    exact charListLe_total a.1.data b.1.data

theorem pairLe_trans (a b c : String × String) (h1 : pairLe a b = true)
    (h2 : pairLe b c = true) : pairLe a c = true := by
  unfold pairLe at h1 h2 ⊢
  by_cases hab : a.1 = b.1
  · by_cases hbc : b.1 = c.1
    · rw [if_pos hab] at h1
      rw [if_pos hbc] at h2
      rw [if_pos (hab.trans hbc)]
      exact charListLe_trans _ _ _ h1 h2
    · rw [if_pos hab] at h1
      rw [if_neg hbc] at h2
      rw [if_neg (fun h => hbc (hab ▸ h)), hab]
      exact h2
  · by_cases hbc : b.1 = c.1
    · rw [if_neg hab] at h1
      rw [if_neg (fun h => hab (h.trans hbc.symm)), ← hbc]
      exact h1
    · rw [if_neg hab] at h1
      rw [if_neg hbc] at h2
      by_cases hac : a.1 = c.1
      · exfalso
        rw [← hac] at h2
        exact hab (String.ext (charListLe_antisymm _ _ h1 h2))
      · rw [if_neg hac]
        exact charListLe_trans _ _ _ h1 h2

theorem pairLe_fst (a b : String × String) (h : pairLe a b = true) : strLe a.1 b.1 = true := by
  unfold pairLe at h
  by_cases hk : a.1 = b.1
  · rw [hk]
    exact strLe_refl b.1
  · rwa [if_neg hk] at h

/-- The grouped formatter's `sorted(metric.labels.items())` yields keys in
ascending order. -/
theorem sorted_labels (labels : List (String × String)) :
    ((labels.mergeSort pairLe).map Prod.fst).Pairwise (fun a b => strLe a b = true) := by
  have hs : (labels.mergeSort pairLe).Pairwise (fun a b => pairLe a b = true) := by
    simpa using List.sorted_mergeSort pairLe_trans pairLe_total labels
  exact List.Pairwise.map Prod.fst (fun a b h => pairLe_fst a b h) hs

/-- C3: in the grouped formatter, a non-empty label set is rendered from
the pairs sorted ascending by key, each value passed through the
three-stage escaping; the escaping is lossless (an explicit inverse
recovers the original value), and on a value containing `"`, `\` and a
newline it produces `\"`, `\\`, `\n` with no double-escaping. -/
theorem c3_label_escaping :
    (∀ labels : List (String × String), labels ≠ [] →
      renderLabels labels =
        "\x7b" ++
          joinWith ","
            ((labels.mergeSort pairLe).map
              (fun p => p.1 ++ "=\"" ++ escape_label_value p.2 ++ "\"")) ++ "\x7d" ∧
      ((labels.mergeSort pairLe).map Prod.fst).Pairwise (fun a b => strLe a b = true)) ∧
    (∀ v : String, unescape_label_value (escape_label_value v) = v) ∧
    escape_label_value "a\"b\\c\nd" = "a\\\"b\\\\c\\nd" := by
  refine ⟨?_, unescape_escape, by rfl⟩
  intro labels h
  refine ⟨?_, sorted_labels labels⟩
  unfold renderLabels
  rw [if_neg (by simpa using h)]

/-- C3 witness: the rendering/sortedness part applied to a concrete
two-label set, and the round-trip applied to a concrete value. -/
theorem c3_label_escaping_witness :
    (([("b", "1"), ("a", "2")] : List (String × String)) ≠ []) ∧
    (renderLabels [("b", "1"), ("a", "2")] =
        "\x7b" ++
          joinWith ","
            ((([("b", "1"), ("a", "2")] : List (String × String)).mergeSort pairLe).map
              (fun p => p.1 ++ "=\"" ++ escape_label_value p.2 ++ "\"")) ++ "\x7d" ∧
      ((([("b", "1"), ("a", "2")] : List (String × String)).mergeSort pairLe).map
          Prod.fst).Pairwise (fun a b => strLe a b = true)) ∧
    unescape_label_value (escape_label_value "x\"y\\z") = "x\"y\\z" :=
  ⟨by simp, c3_label_escaping.1 [("b", "1"), ("a", "2")] (by simp),
   c3_label_escaping.2.1 "x\"y\\z"⟩

theorem dictInsertStr_mem (d : List (String × String)) (k v : String) (p : String × String)
    (h : p ∈ dictInsertStr d k v) : p ∈ d ∨ p = (k, v) := by
  unfold dictInsertStr at h
  by_cases hd : d.any (fun q => q.1 == k) = true
  · rw [if_pos hd] at h
    obtain ⟨q, hq, hqe⟩ := List.mem_map.mp h
    by_cases hk : (q.1 == k) = true
    · right
      rw [if_pos hk] at hqe
      exact hqe.symm
    · left
      rw [if_neg hk] at hqe
      exact hqe ▸ hq
  · rw [if_neg hd] at h
    rcases List.mem_append.mp h with h | h
    · exact Or.inl h
    · exact Or.inr (List.mem_singleton.mp h)

theorem dictInsertStr_mem_self (d : List (String × String)) (k v : String) :
    (k, v) ∈ dictInsertStr d k v := by
  unfold dictInsertStr
  by_cases hd : d.any (fun q => q.1 == k) = true
  · rw [if_pos hd]
    obtain ⟨q, hq, hqk⟩ := List.any_eq_true.mp hd
    refine List.mem_map.mpr ⟨q, hq, ?_⟩
    rw [if_pos hqk]
  · rw [if_neg hd]
    exact List.mem_append.mpr (Or.inr (List.mem_singleton.mpr rfl))

theorem dictInsertStr_mem_of_ne (d : List (String × String)) (k v k' v' : String)
    (hne : k' ≠ k) (h : (k', v') ∈ d) : (k', v') ∈ dictInsertStr d k v := by
  unfold dictInsertStr
  by_cases hd : d.any (fun q => q.1 == k) = true
  · rw [if_pos hd]
    refine List.mem_map.mpr ⟨(k', v'), h, ?_⟩
    rw [if_neg (by simpa using hne)]
  · rw [if_neg hd]
    exact List.mem_append.mpr (Or.inl h)

theorem getD_mem_of_lt (l : List String) (j : Nat) (h : j < l.length) (d : String) :
    l.getD j d ∈ l := by
  induction l generalizing j with
  | nil => simp at h
  | cons x xs ih =>
    cases j with
    | zero => simp
    | succ j' =>
      simp only [List.getD_cons_succ]
      exact List.mem_cons_of_mem x (ih j' (by simpa using h))

/-- Soundness of the tag-extraction fold: every produced pair comes from a
non-underscore header with a present, non-empty cell. -/
theorem tagsFold_sound (row : List String) :
    ∀ (hs : List String) (n : Nat) (acc : List (String × String)) (p : String × String),
      p ∈ (List.enumFrom n hs).foldl (tagStep row) acc →
      p ∈ acc ∨ ∃ j, j < hs.length ∧ strStartsWith (hs.getD j "") "_" = false ∧
        n + j < row.length ∧ row.getD (n + j) "" ≠ "" ∧
        p = (hs.getD j "", row.getD (n + j) "") := by
  intro hs
  induction hs with
  | nil =>
    intro n acc p hp
    exact Or.inl hp
  | cons h hs' ih =>
    intro n acc p hp
    rw [List.enumFrom_cons, List.foldl_cons] at hp
    rcases ih (n + 1) (tagStep row acc (n, h)) p hp with hp1 | ⟨j, hj, hu, hr, hv, hpe⟩
    · unfold tagStep at hp1
      by_cases hc : (!strStartsWith h "_" && decide (n < row.length) &&
          row.getD n "" != "") = true
      · rw [if_pos hc] at hp1
        rcases dictInsertStr_mem _ _ _ _ hp1 with hp2 | hp2
        · exact Or.inl hp2
        · refine Or.inr ⟨0, by simp, ?_, ?_, ?_, by simpa using hp2⟩
          · simp only [List.getD_cons_zero]
            simp only [Bool.and_eq_true, Bool.not_eq_true'] at hc
            exact hc.1.1
          · simp only [Bool.and_eq_true, decide_eq_true_eq] at hc
            simpa using hc.1.2
          · simp only [Bool.and_eq_true, bne_iff_ne] at hc
            simpa using hc.2
      · rw [if_neg hc] at hp1
        exact Or.inl hp1
    · have heq : n + (j + 1) = n + 1 + j := by omega
      refine Or.inr ⟨j + 1, by simpa using hj, by simpa using hu, ?_, ?_, ?_⟩
      · rw [heq]
        exact hr
      · rw [heq]
        exact hv
      · rw [heq]
        simpa using hpe

/-- Keys absent from the remaining headers survive the rest of the fold. -/
theorem tagsFold_preserve (row : List String) :
    ∀ (hs : List String) (n : Nat) (acc : List (String × String)) (k v : String),
      (k, v) ∈ acc → k ∉ hs →
      (k, v) ∈ (List.enumFrom n hs).foldl (tagStep row) acc := by
  intro hs
  induction hs with
  | nil =>
    intro n acc k v hin _
    exact hin
  | cons h hs' ih =>
    intro n acc k v hin hnot
    rw [List.enumFrom_cons, List.foldl_cons]
    refine ih (n + 1) _ k v ?_ (fun hmem => hnot (List.mem_cons_of_mem h hmem))
    unfold tagStep
    by_cases hc : (!strStartsWith h "_" && decide (n < row.length) &&
        row.getD n "" != "") = true
    · rw [if_pos hc]
      exact dictInsertStr_mem_of_ne _ _ _ _ _
        (fun hk => hnot (hk ▸ List.mem_cons_self h hs')) hin
    · rw [if_neg hc]
      exact hin

/-- Completeness of the tag-extraction fold over duplicate-free headers:
a non-underscore header with a present, non-empty cell produces its tag. -/
theorem tagsFold_complete (row : List String) :
    ∀ (hs : List String) (n : Nat) (acc : List (String × String)) (j : Nat),
      hs.Nodup → j < hs.length →
      strStartsWith (hs.getD j "") "_" = false →
      n + j < row.length → row.getD (n + j) "" ≠ "" →
      (hs.getD j "", row.getD (n + j) "") ∈ (List.enumFrom n hs).foldl (tagStep row) acc := by
  intro hs
  induction hs with
  | nil =>
    intro n acc j _ hj
    simp at hj
  | cons h hs' ih =>
    intro n acc j hnd hj hu hr hv
    rw [List.enumFrom_cons, List.foldl_cons]
    cases j with
    | zero =>
      simp only [List.getD_cons_zero] at hu ⊢
      simp only [Nat.add_zero] at hr hv ⊢
      have hstep : tagStep row acc (n, h) = dictInsertStr acc h (row.getD n "") := by
        unfold tagStep
        rw [if_pos]
        simp only [Bool.and_eq_true, Bool.not_eq_true', decide_eq_true_eq, bne_iff_ne]
        exact ⟨⟨hu, hr⟩, hv⟩
      rw [hstep]
      exact tagsFold_preserve row hs' (n + 1) _ h (row.getD n "")
        (dictInsertStr_mem_self acc h (row.getD n ""))
        (List.nodup_cons.mp hnd).1
    | succ j' =>
      simp only [List.getD_cons_succ] at hu ⊢
      have heq : n + (j' + 1) = n + 1 + j' := by omega
      rw [heq] at hr hv ⊢
      exact ih (n + 1) _ j' (List.nodup_cons.mp hnd).2 (by simpa using hj) hu hr hv

/-- C4 (amended): in the annotated-CSV parser a header becomes a tag iff
it does not begin with an underscore and its cell is present and
non-empty; non-reserved headers that begin with an underscore (such as
`_start` or `_stop`) never become tags. -/
theorem c4_tags_non_underscore (headers row : List String) :
    (∀ p ∈ extractTags headers row,
      strStartsWith p.1 "_" = false ∧ p.2 ≠ "" ∧
      ∃ j, j < headers.length ∧ j < row.length ∧
        headers.getD j "" = p.1 ∧ row.getD j "" = p.2) ∧
    (headers.Nodup →
      ∀ j, j < headers.length → j < row.length →
        strStartsWith (headers.getD j "") "_" = false → row.getD j "" ≠ "" →
        (headers.getD j "", row.getD j "") ∈ extractTags headers row) := by
  constructor
  · intro p hp
    unfold extractTags at hp
    rcases tagsFold_sound row headers 0 [] p (by simpa [List.enum] using hp) with
      hfalse | ⟨j, hj, hu, hr, hv, hpe⟩
    · simp at hfalse
    · simp only [Nat.zero_add] at hr hv hpe
      subst hpe
      exact ⟨hu, hv, j, hj, hr, rfl, rfl⟩
  · intro hnd j hj hr hu hv
    unfold extractTags
    have := tagsFold_complete row headers 0 [] j hnd hj hu (by simpa using hr)
      (by simpa using hv)
    simpa [List.enum] using this

/-- C4 counterexample: with a header row containing the non-reserved
underscore column `_start` whose cell is non-empty, the emitted record's
tags contain only `host` — `_start` does not become a tag, refuting the
claim that every non-reserved header with a non-empty cell does. -/
theorem c4_counterexample :
    parse_influxdb_csv
        ("_time,_measurement,_field,_value,_start,host\n" ++
         "2023-01-01T06:00:00Z,cpu,usage,90.5,2023-01-01T00:00:00Z,server01") =
      .ok [{ timestamp := "2023-01-01T06:00:00Z", measurement := "cpu", field := "usage",
             value := "90.5", tags := [("host", "server01")] }] := by
  rfl

/-- C4 witness: both directions of the amended tag rule at a concrete
header/row pair. -/
theorem c4_tags_non_underscore_witness :
    (["_time", "_start", "host"] : List String).Nodup ∧
    (("host", "server01") ∈ extractTags ["_time", "_start", "host"] ["t0", "s0", "server01"] ∧
      ∀ p ∈ extractTags ["_time", "_start", "host"] ["t0", "s0", "server01"],
        strStartsWith p.1 "_" = false) := by
  refine ⟨by decide, ?_, ?_⟩
  · exact (c4_tags_non_underscore ["_time", "_start", "host"] ["t0", "s0", "server01"]).2
      (by decide) 2 (by decide) (by decide) (by decide) (by decide)
  · intro p hp
    exact ((c4_tags_non_underscore ["_time", "_start", "host"] ["t0", "s0", "server01"]).1
      p hp).1

/-- `mapM` over `Except` succeeds pointwise when every element succeeds,
preserving length and order. -/
theorem mapM_ok_of_forall {α β : Type} (f : α → Except String β) (l : List α)
    (h : ∀ a ∈ l, ∃ b, f a = .ok b) :
    ∃ bs : List β, l.mapM f = .ok bs ∧ bs.length = l.length ∧
      ∀ i (hi : i < l.length) (hb : i < bs.length),
        f (l.get ⟨i, hi⟩) = .ok (bs.get ⟨i, hb⟩) := by
  induction l with
  | nil =>
    refine ⟨[], rfl, rfl, ?_⟩
    intro i hi
    simp at hi
  | cons a l' ih =>
    obtain ⟨b, hb⟩ := h a (List.mem_cons_self a l')
    obtain ⟨bs, hbs, hlen, hget⟩ := ih (fun x hx => h x (List.mem_cons_of_mem a hx))
    refine ⟨b :: bs, ?_, by simp [hlen], ?_⟩
    · rw [List.mapM_cons, hb, hbs]
      rfl
    · intro i hi hbi
      cases i with
      | zero => exact hb
      | succ i' => exact hget i' (by simpa using hi) (by simpa using hbi)

/-- C9: the legacy path emits the `_value` cell verbatim: every emitted
sample line splices the raw cell string between the labels and the
timestamp; whenever parsing and timestamp formatting succeed the whole
conversion succeeds with one such line per record — the value is never
parsed or validated — and a concrete row with the non-numeric value
`not-a-number` converts without error. -/
theorem c9_value_verbatim :
    (∀ (item : InfluxRecord) (ts : String), ∃ pre : String,
      prometheusLine item ts = pre ++ " " ++ item.value ++ " " ++ ts) ∧
    (∀ (csv : String) (recs : List InfluxRecord), parse_influxdb_csv csv = .ok recs →
      (∀ r ∈ recs, ∃ t, format_timestamp r.timestamp = .ok t) →
      ∃ lines : List String,
        influx_to_prometheus csv = .ok (joinWith "\n" lines) ∧
        lines.length = recs.length ∧
        ∀ i (hi : i < recs.length) (hl : i < lines.length),
          ∃ t, format_timestamp (recs.get ⟨i, hi⟩).timestamp = .ok t ∧
            lines.get ⟨i, hl⟩ = prometheusLine (recs.get ⟨i, hi⟩) t) ∧
    influx_to_prometheus
        ("_time,_measurement,_field,_value,host\n" ++
         "2023-01-01T06:00:00Z,cpu,usage,not-a-number,server01") =
      .ok "cpu_usage\x7bhost=\"server01\"\x7d not-a-number 1672552800000" := by
  refine ⟨?_, ?_, by rfl⟩
  · intro item ts
    exact ⟨_, rfl⟩
  · intro csv recs hp ht
    have hf : ∀ r ∈ recs, ∃ b,
        (fun item => (format_timestamp item.timestamp).bind
          (fun ts => pure (prometheusLine item ts))) r = .ok b := by
      intro r hr
      obtain ⟨t, hti⟩ := ht r hr
      refine ⟨prometheusLine r t, ?_⟩
      show (format_timestamp r.timestamp).bind _ = _
      rw [hti]
      rfl
    obtain ⟨lines, hls, hlen, hget⟩ := mapM_ok_of_forall _ recs hf
    refine ⟨lines, ?_, hlen, ?_⟩
    · unfold influx_to_prometheus
      rw [hp]
      show (recs.mapM (fun item => (format_timestamp item.timestamp).bind
          (fun ts => pure (prometheusLine item ts)))).bind
          (fun lns => pure (joinWith "\n" lns)) = Except.ok (joinWith "\n" lines)
      rw [hls]
      rfl
    · intro i hi hl
      have hpt := hget i hi hl
      obtain ⟨t, hti⟩ := ht (recs.get ⟨i, hi⟩) (List.get_mem recs i hi)
      refine ⟨t, hti, ?_⟩
      have h2 : (format_timestamp (recs.get ⟨i, hi⟩).timestamp).bind
          (fun ts => pure (prometheusLine (recs.get ⟨i, hi⟩) ts)) =
          Except.ok (lines.get ⟨i, hl⟩) := hpt
      rw [hti] at h2
      have h3 : Except.ok (prometheusLine (recs.get ⟨i, hi⟩) t) =
          Except.ok (lines.get ⟨i, hl⟩) := h2
      exact (Except.ok.inj h3).symm

/-- C9 witness: the emission part applied to the concrete one-row CSV with
a non-numeric value. -/
theorem c9_value_verbatim_witness :
    ∃ lines : List String,
      influx_to_prometheus
          ("_time,_measurement,_field,_value,host\n" ++
           "2023-01-01T06:00:00Z,cpu,usage,not-a-number,server01") =
        .ok (joinWith "\n" lines) ∧ lines.length = 1 := by
  obtain ⟨lines, h1, h2, _⟩ := c9_value_verbatim.2.1
    ("_time,_measurement,_field,_value,host\n" ++
     "2023-01-01T06:00:00Z,cpu,usage,not-a-number,server01")
    [{ timestamp := "2023-01-01T06:00:00Z", measurement := "cpu", field := "usage",
       value := "not-a-number", tags := [("host", "server01")] }]
    (by rfl)
    (by
      intro r hr
      rw [List.mem_singleton.mp hr]
      exact ⟨"1672552800000", rfl⟩)
  exact ⟨lines, h1, by rw [h2]; rfl⟩

/-- C7: in `convert_data`, a record whose timestamp column holds a string
that fails the ISO parse is still converted — the whole batch succeeds
(given valid type and parseable values), order and length are preserved,
and that record's sample simply has no timestamp. -/
theorem c7_recoverable_timestamp (data : List (List (String × Val)))
    (metric_name metric_type value_column : String)
    (label_columns : List String) (help_text : Option String) (tc : String)
    (htype : metric_type ∈ VALID_TYPES)
    (hval : ∀ r ∈ data, ∃ v, lookupRec r value_column = some v ∧ (pyFloatOfVal v).isSome) :
    ∃ ms : List PrometheusMetric,
      convert_data data metric_name metric_type value_column label_columns help_text
        (some tc) = .ok ms ∧
      ms.length = data.length ∧
      ∀ i (hi : i < data.length) (hm : i < ms.length) (s : String),
        tc ≠ "" →
        lookupRec (data.get ⟨i, hi⟩) tc = some (.vstr s) →
        fromIsoMs (charReplace s 'Z' "+00:00") = none →
        (ms.get ⟨i, hm⟩).timestamp = none := by
  have hrec : ∀ r ∈ data, ∃ m,
      convertRecord r metric_name metric_type value_column label_columns help_text
        (some tc) = .ok m := by
    intro r hr
    obtain ⟨v, hv1, hv2⟩ := hval r hr
    obtain ⟨q, hq⟩ := Option.isSome_iff_exists.mp hv2
    refine ⟨{ name := metric_name, value := q, type := metric_type,
              labels := labelsOfRecord r label_columns, help := help_text,
              timestamp := tsOfRecord r (some tc) }, ?_⟩
    unfold convertRecord
    simp only [hv1, hq]
  obtain ⟨ms, hms, hlen, hget⟩ := mapM_ok_of_forall _ data hrec
  refine ⟨ms, ?_, hlen, ?_⟩
  · unfold convert_data
    rw [if_neg (by simpa using htype)]
    exact hms
  · intro i hi hm s htc hlk hiso
    have hpt := hget i hi hm
    obtain ⟨v, hv1, hv2⟩ := hval (data.get ⟨i, hi⟩) (List.get_mem data i hi)
    obtain ⟨q, hq⟩ := Option.isSome_iff_exists.mp hv2
    unfold convertRecord at hpt
    simp only [hv1, hq] at hpt
    have hmi := Except.ok.inj hpt
    have hts : (ms.get ⟨i, hm⟩).timestamp =
        tsOfRecord (data.get ⟨i, hi⟩) (some tc) := by
      rw [← hmi]
    rw [hts]
    simp only [tsOfRecord]
    rw [if_neg htc]
    simp only [hlk, hiso]

/-- C7 witness: a record with an unparseable string timestamp (`garbage`)
is still converted; its sample carries no timestamp. -/
theorem c7_recoverable_timestamp_witness :
    "gauge" ∈ VALID_TYPES ∧
    ∃ ms : List PrometheusMetric,
      convert_data [[("v", Val.vint 1), ("t", Val.vstr "garbage")]] "met" "gauge" "v" []
        none (some "t") = .ok ms ∧ ms.length = 1 ∧
      ∀ hm : 0 < ms.length, (ms.get ⟨0, hm⟩).timestamp = none := by
  refine ⟨by decide, ?_⟩
  obtain ⟨ms, h1, h2, h3⟩ := c7_recoverable_timestamp
    [[("v", .vint 1), ("t", .vstr "garbage")]] "met" "gauge" "v" [] none "t" (by decide)
    (by
      intro r hr
      rw [List.mem_singleton.mp hr]
      exact ⟨.vint 1, rfl, rfl⟩)
  refine ⟨ms, h1, by rw [h2]; rfl, ?_⟩
  intro hm
  exact h3 0 (by decide) hm "garbage" (by decide) rfl rfl

/-- Invariants of the grouping fold of `format_metrics`: the groups are
exactly the first-seen keys mapped to the input-order filters of the whole
list. -/
theorem buildGroups_spec (ms : List PrometheusMetric) :
    buildGroups ms = (seenKeys ms).map
      (fun k => (k, ms.filter (fun m => metricKey m == k))) ∧
    (seenKeys ms).Nodup ∧
    (∀ m' ∈ ms, metricKey m' ∈ seenKeys ms) ∧
    (∀ k ∈ seenKeys ms, ∃ m' ∈ ms, metricKey m' = k) := by
  induction ms using List.reverseRecOn with
  | nil =>
    refine ⟨rfl, List.nodup_nil, ?_, ?_⟩
    · intro m' hm'
      simp at hm'
    · intro k hk
      simp [seenKeys] at hk
  | append_singleton ms m ih =>
    obtain ⟨ihg, ihn, ihm, ihk⟩ := ih
    have hbg : buildGroups (ms ++ [m]) = dictInsertMetric (buildGroups ms) m := by
      unfold buildGroups
      rw [List.foldl_append]
      rfl
    have hsk : seenKeys (ms ++ [m]) =
        if metricKey m ∈ seenKeys ms then seenKeys ms else seenKeys ms ++ [metricKey m] := by
      unfold seenKeys
      rw [List.foldl_append]
      rfl
    have hfil : ∀ k, (ms ++ [m]).filter (fun m' => metricKey m' == k) =
        ms.filter (fun m' => metricKey m' == k) ++
          (if metricKey m = k then [m] else []) := by
      intro k
      rw [List.filter_append]
      congr 1
      by_cases hk : metricKey m = k
      · simp [List.filter_cons, hk]
      · simp [List.filter_cons, hk]
    have hany : (buildGroups ms).any (fun p => p.1 == metricKey m) =
        decide (metricKey m ∈ seenKeys ms) := by
      rw [ihg]
      by_cases hmem : metricKey m ∈ seenKeys ms
      · rw [decide_eq_true hmem]
        refine List.any_eq_true.mpr
          ⟨(metricKey m, ms.filter (fun m' => metricKey m' == metricKey m)), ?_, by simp⟩
        exact List.mem_map.mpr ⟨metricKey m, hmem, rfl⟩
      · rw [decide_eq_false hmem]
        refine List.any_eq_false.mpr ?_
        intro p hp
        obtain ⟨k, hk, hpe⟩ := List.mem_map.mp hp
        rw [← hpe]
        simp only [beq_iff_eq]
        intro hkk
        exact hmem (hkk ▸ hk)
    by_cases hmem : metricKey m ∈ seenKeys ms
    · rw [hbg, hsk, if_pos hmem]
      refine ⟨?_, ihn, ?_, ?_⟩
      · unfold dictInsertMetric
        rw [hany, if_pos (by simpa using hmem), ihg, List.map_map]
        refine List.map_congr_left ?_
        intro k hk
        simp only [Function.comp_apply]
        by_cases hkk : k = metricKey m
        · subst hkk
          rw [if_pos (by simp), hfil (metricKey m), if_pos rfl]
        · rw [if_neg (by simp only [beq_iff_eq]; exact hkk), hfil k,
            if_neg (fun h => hkk h.symm)]
          simp
      · intro m' hm'
        rcases List.mem_append.mp hm' with h | h
        · exact ihm m' h
        · rw [List.mem_singleton.mp h]
          exact hmem
      · intro k hk
        obtain ⟨m', hm', hkey⟩ := ihk k hk
        exact ⟨m', List.mem_append.mpr (Or.inl hm'), hkey⟩
    · rw [hbg, hsk, if_neg hmem]
      refine ⟨?_, ?_, ?_, ?_⟩
      · unfold dictInsertMetric
        rw [hany, if_neg (by simpa using hmem), ihg, List.map_append]
        congr 1
        · refine List.map_congr_left ?_
          intro k hk
          rw [hfil k, if_neg (by intro h; apply hmem; rw [h]; exact hk)]
          simp
        · simp only [List.map_cons, List.map_nil, List.cons.injEq, and_true]
          rw [hfil (metricKey m), if_pos rfl]
          have hnil : ms.filter (fun m' => metricKey m' == metricKey m) = [] := by
            refine List.filter_eq_nil_iff.mpr ?_
            intro m' hm'
            simp only [beq_iff_eq]
            intro hkk
            exact hmem (hkk ▸ ihm m' hm')
          rw [hnil]
          rfl
      · refine List.Nodup.append ihn (List.nodup_singleton _) ?_
        intro k hk1 hk2
        rw [List.mem_singleton.mp hk2] at hk1
        exact hmem hk1
      · intro m' hm'
        rcases List.mem_append.mp hm' with h | h
        · exact List.mem_append.mpr (Or.inl (ihm m' h))
        · rw [List.mem_singleton.mp h]
          exact List.mem_append.mpr (Or.inr (List.mem_singleton.mpr rfl))
      · intro k hk
        rcases List.mem_append.mp hk with h | h
        · obtain ⟨m', hm', hkey⟩ := ihk k h
          exact ⟨m', List.mem_append.mpr (Or.inl hm'), hkey⟩
        · exact ⟨m, List.mem_append.mpr (Or.inr (List.mem_singleton.mpr rfl)),
            (List.mem_singleton.mp h).symm⟩

/-- C2 (amended): in one `format_metrics` output, all samples sharing the
grouping key `name ++ ":" ++ type` (in particular all samples sharing the
pair `(name, type)`) form exactly one group, in first-seen key order,
holding the group's samples in input order; each group's block has exactly
one `# TYPE` line, and a `# HELP` line exactly when the group's FIRST
sample carries non-empty help text — using that first sample's help, not
the first help found anywhere in the group. -/
theorem c2_grouping (ms : List PrometheusMetric) :
    (ms ≠ [] → format_metrics ms = joinWith "\n" (formatLinesM ms)) ∧
    buildGroups ms = (seenKeys ms).map
      (fun k => (k, ms.filter (fun m => metricKey m == k))) ∧
    (seenKeys ms).Nodup ∧
    (∀ m' ∈ ms, metricKey m' ∈ seenKeys ms) ∧
    (∀ k ∈ seenKeys ms, ms.filter (fun m => metricKey m == k) ≠ []) ∧
    formatLinesM ms = (seenKeys ms).flatMap
      (fun k => groupBlock (ms.filter (fun m => metricKey m == k))) ∧
    (∀ (first : PrometheusMetric) (rest : List PrometheusMetric),
      groupBlock (first :: rest) =
        (match first.help with
         | some htext => if htext = "" then [] else ["# HELP " ++ first.name ++ " " ++ htext]
         | none => []) ++
        ("# TYPE " ++ first.name ++ " " ++ first.type) ::
        ((first :: rest).map sampleLine ++ [""])) := by
  obtain ⟨hg, hn, hm, hk⟩ := buildGroups_spec ms
  refine ⟨?_, hg, hn, hm, ?_, ?_, fun first rest => rfl⟩
  · intro hne
    unfold format_metrics
    rw [if_neg (by simpa using hne)]
  · intro k hk'
    obtain ⟨m', hm', hkey⟩ := hk k hk'
    intro hfil
    have hmem : m' ∈ ms.filter (fun m => metricKey m == k) :=
      List.mem_filter.mpr ⟨hm', by simp [hkey]⟩
    rw [hfil] at hmem
    simp at hmem
  · unfold formatLinesM
    rw [hg, List.flatMap_map]

/-- C2 counterexample: two samples of the same `(name, type)` group where
only the second carries help text: the code checks only the group's first
sample, so no `# HELP` line is emitted, refuting "exactly one `# HELP`
whenever any sample in the group carries help text". -/
theorem c2_counterexample :
    metricKey { name := "m", value := 1, type := "gauge", labels := [],
                help := none, timestamp := none } =
      metricKey { name := "m", value := 2, type := "gauge", labels := [],
                  help := some "desc", timestamp := none } ∧
    (formatLinesM
        [{ name := "m", value := 1, type := "gauge", labels := [], help := none,
           timestamp := none },
         { name := "m", value := 2, type := "gauge", labels := [], help := some "desc",
           timestamp := none }]).countP
      (fun l => strStartsWith l "# HELP") = 0 :=
  ⟨rfl, rfl⟩

/-- C2 witness: the grouping theorem applied to a concrete two-sample
list sharing one key. -/
theorem c2_grouping_witness :
    (([{ name := "a", value := 1, type := "gauge", labels := [], help := some "h",
         timestamp := none },
       { name := "a", value := 2, type := "gauge", labels := [], help := none,
         timestamp := none }] : List PrometheusMetric) ≠ []) ∧
    format_metrics
        [{ name := "a", value := 1, type := "gauge", labels := [], help := some "h",
           timestamp := none },
         { name := "a", value := 2, type := "gauge", labels := [], help := none,
           timestamp := none }] =
      joinWith "\n"
        (formatLinesM
          [{ name := "a", value := 1, type := "gauge", labels := [], help := some "h",
             timestamp := none },
           { name := "a", value := 2, type := "gauge", labels := [], help := none,
             timestamp := none }]) ∧
    ("a:gauge" ∈ seenKeys
        [{ name := "a", value := 1, type := "gauge", labels := [], help := some "h",
           timestamp := none },
         { name := "a", value := 2, type := "gauge", labels := [], help := none,
           timestamp := none }]) ∧
    ([{ name := "a", value := 1, type := "gauge", labels := [], help := some "h",
        timestamp := none },
      { name := "a", value := 2, type := "gauge", labels := [], help := none,
        timestamp := none }] : List PrometheusMetric).filter
      (fun m => metricKey m == "a:gauge") ≠ [] := by
  refine ⟨by simp, (c2_grouping _).1 (by simp), by decide, ?_⟩
  exact (c2_grouping
    [{ name := "a", value := 1, type := "gauge", labels := [], help := some "h",
       timestamp := none },
     { name := "a", value := 2, type := "gauge", labels := [], help := none,
       timestamp := none }]).2.2.2.2.1 "a:gauge" (by decide)
